import Mathlib

/-!
# The Terminator (`terminator.c`): termination by name and the file operations behind it

A shallow embedding of the core of `terminator.c`: `strcasecmp`-based matching,
`killProcessByName`, `killOption`, `killRenameOption`, `killDeleteOption`,
`gnuBasename`, `printUsage` and `argsCLI`.

C strings are lists of characters (the terminating NUL is implicit), a pointer
into a string is an offset, `DWORD` process ids are natural numbers.  The
operating system is an explicit `World` that is passed through every function:
what the Toolhelp snapshot yields, whether `OpenProcess` / `TerminateProcess`
succeed for a pid, the files on disk, `errno`, and the trace of every
operating-system call and every write to `stdout` / `stderr`, in program order.
-/

namespace Terminator

/-- A NUL-terminated C string, without its terminator. -/
abbrev CStr := List Char

/-- A Win32 `DWORD` process id. -/
abbrev DWORD := Nat

/-! ## libc string functions -/

/-- ASCII `tolower` ("C" locale): only `A`..`Z` are changed. -/
def tolower (c : Char) : Char :=
  if 65 ≤ c.toNat ∧ c.toNat ≤ 90 then Char.ofNat (c.toNat + 32) else c

/-- The libc `strcasecmp`: compares the lower-cased characters pairwise and returns the
difference at the first position where they differ (the end of a string reads as NUL),
`0` when there is none. -/
def strcasecmp : CStr → CStr → Int
  | [], [] => 0
  | [], b :: _ => 0 - ((tolower b).toNat : Int)
  | a :: _, [] => ((tolower a).toNat : Int)
  | a :: s1, b :: s2 =>
    if tolower a = tolower b then strcasecmp s1 s2
    else ((tolower a).toNat : Int) - ((tolower b).toNat : Int)

/-- The libc `strrchr`: the offset of the last occurrence of `c` in `s`, `none` for the
NULL pointer when `c` does not occur. -/
def strrchr : CStr → Char → Option Nat
  | [], _ => none
  | x :: s, c =>
    match strrchr s c with
    | some i => some (i + 1)
    | none => if x = c then some 0 else none

/-- `gnuBasename` of `terminator.c`: one past the last backslash, or the string itself. -/
def gnuBasename (filename : CStr) : CStr :=
  match strrchr filename '\\' with
  | some base => filename.drop (base + 1)
  | none => filename

/-! ## The operating system -/

/-- The two fields of the Win32 `PROCESSENTRY32` record that the program reads. -/
structure PROCESSENTRY32 where
  szExeFile : CStr
  th32ProcessID : DWORD
  deriving DecidableEq, Repr

/-- What `CreateToolhelp32Snapshot`, `Process32First` and `Process32Next` yield:
an invalid handle, a snapshot whose first entry cannot be read, or the entries
in enumeration order (`Process32First` gives `first`, each `Process32Next` one of `next`). -/
inductive Toolhelp
  | invalidHandle
  | noFirstEntry
  | processes (first : PROCESSENTRY32) (next : List PROCESSENTRY32)
  deriving DecidableEq, Repr

/-- The handles the program holds. -/
inductive HANDLE
  | hSnapShot
  | hProcess (pid : DWORD)
  deriving DecidableEq, Repr

/-- The two output streams. -/
inductive FILE
  | stdout
  | stderr
  deriving DecidableEq, Repr

/-- An argument of a `printf` conversion: `%s` with a string, `%lu` with a number,
`%s` with `strerror(errnum)`. -/
inductive Arg
  | str (s : CStr)
  | lu (n : Nat)
  | strerror (errnum : Nat)
  deriving DecidableEq, Repr

/-- One observable step of a run: an operating-system call or a write to a stream. -/
inductive Event
  | CreateToolhelp32Snapshot
  | OpenProcess (pid : DWORD)
  | TerminateProcess (pid : DWORD) (uExitCode : Nat)
  | CloseHandle (h : HANDLE)
  | access (path : CStr)
  | rename (old new : CStr)
  | remove (path : CStr)
  | fprintf (stream : FILE) (format : String) (args : List Arg)
  | fputs (s : String) (stream : FILE)
  deriving DecidableEq, Repr

/-- The state of the machine the program runs on. -/
structure World where
  /-- what the process snapshot yields -/
  toolhelp : Toolhelp
  /-- does `OpenProcess(PROCESS_TERMINATE, false, pid)` return a handle -/
  openProcess : DWORD → Bool
  /-- does `TerminateProcess` on the handle of `pid` return nonzero -/
  terminateProcess : DWORD → Bool
  /-- the pids whose termination succeeded so far -/
  terminated : List DWORD
  /-- the files on disk: path and content -/
  files : List (CStr × CStr)
  /-- the error `rename old new` fails with on an existing `old`, `0` when the system allows it -/
  renameErrno : CStr → CStr → Nat
  /-- the error `remove path` fails with on an existing `path`, `0` when the system allows it -/
  removeErrno : CStr → Nat
  errno : Nat
  /-- every system call and every write so far, oldest first -/
  trace : List Event

def ENOENT : Nat := 2

def EXIT_SUCCESS : Int := 0

def EXIT_FAILURE : Int := 1

/-- Appends one event to the trace. -/
def World.emit (w : World) (e : Event) : World :=
  { w with trace := w.trace ++ [e] }

/-- Is there a file at exactly this path. -/
def fileExists (files : List (CStr × CStr)) (path : CStr) : Bool :=
  files.any (fun f => decide (f.1 = path))

/-- The content of the file at this path. -/
def fileContent : List (CStr × CStr) → CStr → Option CStr
  | [], _ => none
  | f :: fs, path => if f.1 = path then some f.2 else fileContent fs path

/-- The Win32 `OpenProcess(PROCESS_TERMINATE, false, pid)`: is the handle non-NULL. -/
def OpenProcess (w : World) (pid : DWORD) : Bool × World :=
  (w.openProcess pid, w.emit (.OpenProcess pid))

/-- The Win32 `TerminateProcess(hProcess, uExitCode)` on the handle of `pid`. -/
def TerminateProcess (w : World) (pid : DWORD) (uExitCode : Nat) : Bool × World :=
  let w := w.emit (.TerminateProcess pid uExitCode)
  if w.terminateProcess pid then (true, { w with terminated := w.terminated ++ [pid] })
  else (false, w)

/-- The libc `access(path, F_OK)`: `0` when the file exists, else `-1` with `errno` set. -/
def access (w : World) (path : CStr) : Int × World :=
  let w := w.emit (.access path)
  if fileExists w.files path then (0, w) else (-1, { w with errno := ENOENT })

/-- The libc `rename(old, new)`: `0` when the file was moved, else `-1` with `errno` set
and the files untouched. -/
def rename (w : World) (old new : CStr) : Int × World :=
  let w := w.emit (.rename old new)
  match fileContent w.files old with
  | none => (-1, { w with errno := ENOENT })
  | some content =>
    if w.renameErrno old new = 0 then
      (0, { w with files :=
              (new, content) :: w.files.filter (fun f => decide (f.1 ≠ old ∧ f.1 ≠ new)) })
    else (-1, { w with errno := w.renameErrno old new })

/-- The libc `remove(path)`: `0` when the file was deleted, else `-1` with `errno` set
and the files untouched. -/
def remove (w : World) (path : CStr) : Int × World :=
  let w := w.emit (.remove path)
  if fileExists w.files path then
    if w.removeErrno path = 0 then
      (0, { w with files := w.files.filter (fun f => decide (f.1 ≠ path)) })
    else (-1, { w with errno := w.removeErrno path })
  else (-1, { w with errno := ENOENT })

/-! ## `killProcessByName` -/

/-- The body of the `do ... while (Process32Next(...))` loop of `killProcessByName`
for one snapshot entry; `hasKilled` is the flag of the same name. -/
def killEntry (process_name : CStr) (pEntry : PROCESSENTRY32) (hasKilled : Bool)
    (w : World) : Bool × World :=
  if strcasecmp pEntry.szExeFile process_name = 0 then
    let (hProcess, w) := OpenProcess w pEntry.th32ProcessID
    if hProcess then
      let w := (TerminateProcess w pEntry.th32ProcessID 9).2
      let w := w.emit (.CloseHandle (.hProcess pEntry.th32ProcessID))
      let w := w.emit (.fprintf .stdout "Terminated process - %s (PID: %lu)\n"
        [.str pEntry.szExeFile, .lu pEntry.th32ProcessID])
      (true, w)
    else (hasKilled, w)
  else (hasKilled, w)

/-- The walk over the snapshot entries, in enumeration order. -/
def walkSnapshot (process_name : CStr) : List PROCESSENTRY32 → Bool → World → Bool × World
  | [], hasKilled, w => (hasKilled, w)
  | pEntry :: next, hasKilled, w =>
    let (hasKilled, w) := killEntry process_name pEntry hasKilled w
    walkSnapshot process_name next hasKilled w

/-- `killProcessByName` of `terminator.c`: the returned flag and the world afterwards. -/
def killProcessByName (w : World) (process_name : CStr) : Bool × World :=
  let w := w.emit .CreateToolhelp32Snapshot
  match w.toolhelp with
  | .invalidHandle =>
    (false, w.emit (.fprintf .stderr "Error: Unable to acquire process list." []))
  | .noFirstEntry =>
    let w := w.emit (.fprintf .stderr "Error: Unable to retrieve process information." [])
    (false, w.emit (.CloseHandle .hSnapShot))
  | .processes first next =>
    let (hasKilled, w) := walkSnapshot process_name (first :: next) false w
    (hasKilled, w.emit (.CloseHandle .hSnapShot))

/-! ## The three core operations -/

/-- `killOption` of `terminator.c`. -/
def killOption (w : World) (process_name : CStr) : Bool × World :=
  let (killed, w) := killProcessByName w process_name
  if killed = false then
    (false, w.emit (.fprintf .stderr "Error: Process '%s' was not found.\n" [.str process_name]))
  else (true, w)

/-- `killRenameOption` of `terminator.c`. -/
def killRenameOption (w : World) (process_name old_name new_name : CStr) : Bool × World :=
  if strcasecmp old_name new_name = 0 then
    (false, w.emit (.fprintf .stderr "Error: New filename '%s' is the same as the original.\n"
      [.str (gnuBasename new_name)]))
  else
    let (killed, w) := killProcessByName w process_name
    if killed = false then
      (false, w.emit (.fprintf .stderr
        "Error: Process '%s' was not found. The file '%s' will not be renamed.\n"
        [.str process_name, .str (gnuBasename old_name)]))
    else
      let (found, w) := access w old_name
      if found = 0 then
        let (moved, w) := rename w old_name new_name
        if moved = 0 then
          (true, w.emit (.fprintf .stdout "File '%s' was renamed to '%s' successfully.\n"
            [.str (gnuBasename old_name), .str (gnuBasename new_name)]))
        else
          (false, w.emit (.fprintf .stderr "Error: Unable to rename the file '%s'. %s.\n"
            [.str (gnuBasename old_name), .strerror w.errno]))
      else
        (false, w.emit (.fprintf .stderr "Error: Unable to rename the file '%s'. %s.\n"
          [.str (gnuBasename old_name), .strerror w.errno]))

/-- `killDeleteOption` of `terminator.c`. -/
def killDeleteOption (w : World) (process_name filename : CStr) : Bool × World :=
  let (killed, w) := killProcessByName w process_name
  if killed = false then
    (false, w.emit (.fprintf .stderr
      "Error: Process '%s' was not found. The file '%s' will not be deleted.\n"
      [.str process_name, .str (gnuBasename filename)]))
  else
    let (found, w) := access w filename
    if found = 0 then
      let (gone, w) := remove w filename
      if gone = 0 then
        (true, w.emit (.fprintf .stdout "File '%s' was deleted successfully.\n"
          [.str (gnuBasename filename)]))
      else
        (false, w.emit (.fprintf .stderr "Error: Unable to delete the file '%s'. %s.\n"
          [.str (gnuBasename filename), .strerror w.errno]))
    else
      (false, w.emit (.fprintf .stderr "Error: Unable to delete the file '%s'. %s.\n"
        [.str (gnuBasename filename), .strerror w.errno]))

/-! ## Command line mode -/

/-- One return of `getopt(argc, argv, "-k:K:r:R:n:N:d:D:hH?")` before the final `-1`:
the returned option character (`'?'` for an unknown option or a missing value,
the character of code `1` for a value with no option) and the string `optarg` points to
(read only for the options that take a value, for which `getopt` always sets it).
What `getopt` itself writes to `stderr` is not part of the trace. -/
structure Getopt where
  option : Char
  optarg : CStr
  deriving DecidableEq, Repr

/-- The `enum mode` local to `argsCLI`. -/
inductive mode
  | OPT_KILL
  | OPT_KILL_RENAME
  | OPT_KILL_DELETE
  deriving DecidableEq, Repr

/-- A call of one of the three core operations, with its arguments. -/
inductive CoreCall
  | killOption (process_name : CStr)
  | killRenameOption (process_name old_name new_name : CStr)
  | killDeleteOption (process_name filename : CStr)
  deriving DecidableEq, Repr

/-- Runs the call. -/
def CoreCall.run : CoreCall → World → Bool × World
  | .killOption p, w => Terminator.killOption w p
  | .killRenameOption p o n, w => Terminator.killRenameOption w p o n
  | .killDeleteOption p f, w => Terminator.killDeleteOption w p f

/-- How `argsCLI` ends: the exit status, the core operations it called (in order),
and the world afterwards. -/
structure Exit where
  status : Int
  invoked : List CoreCall
  world : World

/-- `printUsage` of `terminator.c`. -/
def printUsage (w : World) (program_name : CStr) : Int × World :=
  let w := w.emit (.fprintf .stderr
    "\nUsage: %s -? | -k <process_name> [-r <old_filename> -n <new_filename> | -d <filename>]\n"
    [.str program_name])
  let w := w.emit (.fputs
    ("\nOptions:\n" ++
     "  -k, -K \t Kills running process by name.\n" ++
     "  -r, -R \t Use with -k plus it renames a file.\n" ++
     "  -n, -N \t Use with -r to specify new filename.\n" ++
     "  -d, -D \t Use with -k plus it deletes a file.\n" ++
     "  -?, -h, -H \t Displays this usage information.\n") .stderr)
  let w := w.emit (.fputs "\nI'll be back . . .\n" .stderr)
  (EXIT_FAILURE, w)

/-- The statement `return printUsage(argv[0]);` of `argsCLI`. -/
def returnUsage (w : World) (argv0 : CStr) : Exit :=
  ⟨(printUsage w argv0).1, [], (printUsage w argv0).2⟩

/-- The tail `if (call) return EXIT_SUCCESS; ... return EXIT_FAILURE;` of `argsCLI`
for the call `c`. -/
def returnCall (w : World) (c : CoreCall) : Exit :=
  ⟨if (c.run w).1 then EXIT_SUCCESS else EXIT_FAILURE, [c], (c.run w).2⟩

/-- The four locals of `argsCLI` that the option loop sets. -/
structure Locals where
  processName : Option CStr
  filename : Option CStr
  newFilename : Option CStr
  optMode : mode
  deriving DecidableEq, Repr

/-- The `switch (optMode)` after the option loop of `argsCLI`.  `none` stands for the
undefined behaviour of passing a NULL `filename` on. -/
def argsSwitch (w : World) (argv0 : CStr) (s : Locals) : Option Exit :=
  match s.optMode with
  | .OPT_KILL =>
    match s.processName with
    | none => some (returnUsage w argv0)
    | some p => some (returnCall w (.killOption p))
  | .OPT_KILL_RENAME =>
    match s.processName, s.newFilename with
    | some p, some n =>
      match s.filename with
      | some f => some (returnCall w (.killRenameOption p f n))
      | none => none
    | _, _ => some (returnUsage w argv0)
  | .OPT_KILL_DELETE =>
    match s.processName with
    | none => some (returnUsage w argv0)
    | some p =>
      match s.filename with
      | some f => some (returnCall w (.killDeleteOption p f))
      | none => none

/-- The `while ((option = getopt(...)) != -1)` loop of `argsCLI` over the remaining
`getopt` returns, followed by the `switch (optMode)`. -/
def argsLoop (w : World) (argv0 : CStr) : List Getopt → Locals → Option Exit
  | [], s => argsSwitch w argv0 s
  | g :: rest, s =>
    if g.option = 'K' ∨ g.option = 'k' then
      if s.processName ≠ none then some (returnUsage w argv0)
      else argsLoop w argv0 rest { s with processName := some g.optarg }
    else if g.option = 'R' ∨ g.option = 'r' then
      if s.filename ≠ none ∨ s.optMode ≠ .OPT_KILL then some (returnUsage w argv0)
      else argsLoop w argv0 rest
        { s with filename := some g.optarg, optMode := .OPT_KILL_RENAME }
    else if g.option = 'N' ∨ g.option = 'n' then
      if s.newFilename ≠ none then some (returnUsage w argv0)
      else argsLoop w argv0 rest { s with newFilename := some g.optarg }
    else if g.option = 'D' ∨ g.option = 'd' then
      if s.filename ≠ none ∨ s.optMode ≠ .OPT_KILL then some (returnUsage w argv0)
      else argsLoop w argv0 rest
        { s with filename := some g.optarg, optMode := .OPT_KILL_DELETE }
    else some (returnUsage w argv0)

/-- `argsCLI` of `terminator.c` on the sequence of `getopt` returns for `argv`. -/
def argsCLI (w : World) (argv0 : CStr) (opts : List Getopt) : Option Exit :=
  argsLoop w argv0 opts ⟨none, none, none, .OPT_KILL⟩

/-! ## Reading the command line -/

/-- The four option flags that take a value. -/
inductive Flag
  | k
  | r
  | n
  | d
  deriving DecidableEq, Repr

/-- The flag an option character spells, in either case; `none` for every other return
of `getopt` (`h`, `H`, `'?'` for an unknown option or a missing value, code `1` for a
value with no option). -/
def flagOf (c : Char) : Option Flag :=
  if c = 'K' ∨ c = 'k' then some .k
  else if c = 'R' ∨ c = 'r' then some .r
  else if c = 'N' ∨ c = 'n' then some .n
  else if c = 'D' ∨ c = 'd' then some .d
  else none

/-- How often a flag occurs among the parsed options. -/
def flagCount (f : Flag) (opts : List Getopt) : Nat :=
  opts.countP (fun g => decide (flagOf g.option = some f))

/-- Does an occurrence of the flag make the loop return the usage message, given the locals. -/
def Locals.blocks (s : Locals) : Flag → Bool
  | .k => decide (s.processName ≠ none)
  | .r => decide (s.filename ≠ none ∨ s.optMode ≠ .OPT_KILL)
  | .n => decide (s.newFilename ≠ none)
  | .d => decide (s.filename ≠ none ∨ s.optMode ≠ .OPT_KILL)

/-- The locals after an accepted occurrence of the flag with value `optarg`. -/
def Locals.store (s : Locals) (optarg : CStr) : Flag → Locals
  | .k => { s with processName := some optarg }
  | .r => { s with filename := some optarg, optMode := .OPT_KILL_RENAME }
  | .n => { s with newFilename := some optarg }
  | .d => { s with filename := some optarg, optMode := .OPT_KILL_DELETE }

/-- The paths an event hands to the file system. -/
def Event.paths : Event → List CStr
  | .access path => [path]
  | .rename old new => [old, new]
  | .remove path => [path]
  | _ => []

/-- The strings an event writes through a `%s` conversion. -/
def Event.shown : Event → List CStr
  | .fprintf _ _ args =>
    args.filterMap (fun a => match a with
      | .str s => some s
      | _ => none)
  | _ => []

/-- Is the event a call into the operating system (process or file system),
as opposed to a write to a stream. -/
def Event.isSystemCall : Event → Bool
  | .fprintf _ _ _ => false
  | .fputs _ _ => false
  | _ => true

/-- Is the event a file system call that changes the disk. -/
def Event.isMutation : Event → Bool
  | .rename _ _ => true
  | .remove _ => true
  | _ => false

/-- The pids of the `OpenProcess` calls of a trace, in order. -/
def openedPids : List Event → List DWORD
  | [] => []
  | .OpenProcess pid :: t => pid :: openedPids t
  | _ :: t => openedPids t

/-- The pids of the `TerminateProcess` calls of a trace, in order. -/
def terminatePids : List Event → List DWORD
  | [] => []
  | .TerminateProcess pid _ :: t => pid :: terminatePids t
  | _ :: t => terminatePids t

/-- Does the snapshot entry carry the requested name, as `killProcessByName` tests it. -/
def matchesName (process_name : CStr) (pEntry : PROCESSENTRY32) : Bool :=
  decide (strcasecmp pEntry.szExeFile process_name = 0)

/-- The message `killEntry` prints for a terminated entry. -/
def terminatedMessage (pEntry : PROCESSENTRY32) : Event :=
  .fprintf .stdout "Terminated process - %s (PID: %lu)\n"
    [.str pEntry.szExeFile, .lu pEntry.th32ProcessID]

/-- The events one snapshot entry adds to the trace, given the answers of `OpenProcess`. -/
def entryEvents (openProcess : DWORD → Bool) (process_name : CStr)
    (pEntry : PROCESSENTRY32) : List Event :=
  if matchesName process_name pEntry then
    if openProcess pEntry.th32ProcessID then
      [.OpenProcess pEntry.th32ProcessID, .TerminateProcess pEntry.th32ProcessID 9,
        .CloseHandle (.hProcess pEntry.th32ProcessID), terminatedMessage pEntry]
    else [.OpenProcess pEntry.th32ProcessID]
  else []

/-- The events a walk over the entries adds to the trace. -/
def walkEvents (openProcess : DWORD → Bool) (process_name : CStr) :
    List PROCESSENTRY32 → List Event
  | [] => []
  | pEntry :: next =>
    entryEvents openProcess process_name pEntry ++ walkEvents openProcess process_name next

/-- Was the entry really terminated: its name matches, `OpenProcess` gave a handle and
`TerminateProcess` reported success. -/
def reallyTerminated (openProcess terminateProcess : DWORD → Bool) (process_name : CStr)
    (pEntry : PROCESSENTRY32) : Bool :=
  matchesName process_name pEntry && openProcess pEntry.th32ProcessID
    && terminateProcess pEntry.th32ProcessID

/-- The pids a walk over the entries really terminates, in order. -/
def walkTerminated (openProcess terminateProcess : DWORD → Bool) (process_name : CStr)
    (entries : List PROCESSENTRY32) : List DWORD :=
  (entries.filter (reallyTerminated openProcess terminateProcess process_name)).map
    (fun e => e.th32ProcessID)

/-- The flag a walk over the entries ends with. -/
def walkFlag (openProcess : DWORD → Bool) (process_name : CStr)
    (entries : List PROCESSENTRY32) : Bool :=
  entries.any (fun e => matchesName process_name e && openProcess e.th32ProcessID)

/-- The same machine with a snapshot that yields the given entries. -/
def World.withProcesses (w : World) (first : PROCESSENTRY32) (next : List PROCESSENTRY32) :
    World :=
  { w with toolhelp := .processes first next }

/-- The same machine with a snapshot in the given state. -/
def World.withToolhelp (w : World) (t : Toolhelp) : World :=
  { w with toolhelp := t }

/-- The events a run that started in `before` and ended in `after` added to the trace. -/
def eventsSince (before after : World) : List Event :=
  after.trace.drop before.trace.length

/-! ## Sample worlds -/

/-- A machine on which no snapshot entry can be read, no process can be opened and the
disk is empty. -/
def World.blank : World :=
  { toolhelp := .noFirstEntry
    openProcess := fun _ => false
    terminateProcess := fun _ => false
    terminated := []
    files := []
    renameErrno := fun _ _ => 0
    removeErrno := fun _ => 0
    errno := 0
    trace := [] }

/-- The snapshot entry of a process `stuck.exe` with pid 4242. -/
def stuckEntry : PROCESSENTRY32 := ⟨"stuck.exe".toList, 4242⟩

/-- A machine running `stuck.exe` (pid 4242), whose handle can be opened with
`PROCESS_TERMINATE` but on which `TerminateProcess` fails. -/
def stuckWorld : World :=
  { World.blank with
    toolhelp := .processes stuckEntry []
    openProcess := fun _ => true
    terminateProcess := fun _ => false }

/-- A machine whose snapshot cannot be acquired at all. -/
def noSnapshotWorld : World :=
  { World.blank with toolhelp := .invalidHandle }

/-- A machine on which every process but pid 1 can be opened and terminated. -/
def sweepWorld : World :=
  { World.blank with
    openProcess := fun pid => decide (pid ≠ 1)
    terminateProcess := fun pid => decide (pid ≠ 1) }

/-- The first snapshot entry of the sample sweep: `stuck.exe`, pid 1. -/
def sweepFirst : PROCESSENTRY32 := ⟨"stuck.exe".toList, 1⟩

/-- The other snapshot entries of the sample sweep: `other.exe` (pid 2) and
`STUCK.EXE` (pid 3). -/
def sweepNext : List PROCESSENTRY32 := [⟨"other.exe".toList, 2⟩, ⟨"STUCK.EXE".toList, 3⟩]

/-- A machine running `a.exe` (pid 7), which can be opened and terminated, with the
file `a.exe` on disk. -/
def lockerWorld : World :=
  { World.blank with
    toolhelp := .processes ⟨"a.exe".toList, 7⟩ []
    openProcess := fun _ => true
    terminateProcess := fun _ => true
    files := [("a.exe".toList, "MZ".toList)] }

/-- The events `killRenameOption` adds after the sweep of `killProcessByName` (after the
start, when the same-name check fails), given the results `killed` of
`killProcessByName`, `found` of `access`, `moved` of `rename` and the `errno` left. -/
def renameEvents (p o n : CStr) (same killed : Bool) (found moved : Int) (errno : Nat) :
    List Event :=
  if same then
    [.fprintf .stderr "Error: New filename '%s' is the same as the original.\n"
      [.str (gnuBasename n)]]
  else if killed = false then
    [.fprintf .stderr "Error: Process '%s' was not found. The file '%s' will not be renamed.\n"
      [.str p, .str (gnuBasename o)]]
  else if found = 0 then
    if moved = 0 then
      [.access o, .rename o n, .fprintf .stdout "File '%s' was renamed to '%s' successfully.\n"
        [.str (gnuBasename o), .str (gnuBasename n)]]
    else
      [.access o, .rename o n, .fprintf .stderr "Error: Unable to rename the file '%s'. %s.\n"
        [.str (gnuBasename o), .strerror errno]]
  else
    [.access o, .fprintf .stderr "Error: Unable to rename the file '%s'. %s.\n"
      [.str (gnuBasename o), .strerror errno]]

/-- The events `killDeleteOption` adds after the sweep of `killProcessByName`, given the
results `killed` of `killProcessByName`, `found` of `access`, `gone` of `remove` and the
`errno` left. -/
def deleteEvents (p f : CStr) (killed : Bool) (found gone : Int) (errno : Nat) :
    List Event :=
  if killed = false then
    [.fprintf .stderr "Error: Process '%s' was not found. The file '%s' will not be deleted.\n"
      [.str p, .str (gnuBasename f)]]
  else if found = 0 then
    if gone = 0 then
      [.access f, .remove f, .fprintf .stdout "File '%s' was deleted successfully.\n"
        [.str (gnuBasename f)]]
    else
      [.access f, .remove f, .fprintf .stderr "Error: Unable to delete the file '%s'. %s.\n"
        [.str (gnuBasename f), .strerror errno]]
  else
    [.access f, .fprintf .stderr "Error: Unable to delete the file '%s'. %s.\n"
      [.str (gnuBasename f), .strerror errno]]

/-- A machine running `locker.exe` (pid 7), which can be opened and terminated, with the
file `C:\dir\a.txt` on disk. -/
def pathWorld : World :=
  { World.blank with
    toolhelp := .processes ⟨"locker.exe".toList, 7⟩ []
    openProcess := fun _ => true
    terminateProcess := fun _ => true
    files := [("C:\\dir\\a.txt".toList, "text".toList)] }

/-- The three writes of `printUsage` for the program name `argv0`. -/
def usageEvents (argv0 : CStr) : List Event :=
  eventsSince World.blank (printUsage World.blank argv0).2

/-- The command line `-k a.exe -r x -D y`. -/
def renameAndDelete : List Getopt :=
  [⟨'k', "a.exe".toList⟩, ⟨'r', "x".toList⟩, ⟨'D', "y".toList⟩]

/-- A machine running `a.exe` (pid 7) with the file `a.exe` on disk, where the handle of
the process can be opened with `PROCESS_TERMINATE` but `TerminateProcess` fails. -/
def zombieWorld : World :=
  { World.blank with
    toolhelp := .processes ⟨"a.exe".toList, 7⟩ []
    openProcess := fun _ => true
    terminateProcess := fun _ => false
    files := [("a.exe".toList, "MZ".toList)] }

/-- The process name a call of a core operation is given. -/
def CoreCall.processName : CoreCall → CStr
  | .killOption p => p
  | .killRenameOption p _ _ => p
  | .killDeleteOption p _ => p

theorem strrchr_none_iff (s : CStr) (c : Char) : strrchr s c = none ↔ c ∉ s := by
  induction s with
  | nil => simp [strrchr]
  | cons x s ih =>
    unfold strrchr
    cases h : strrchr s c with
    | some i =>
      have : ¬ (c ∉ s) := fun hn => by rw [ih.mpr hn] at h; cases h
      simp only [List.mem_cons, not_or]
      constructor
      · intro h0; cases h0
      · intro h1; exact absurd h1.2 this
    | none =>
      have hc : c ∉ s := ih.mp h
      by_cases hx : x = c
      · subst hx; simp
      · simp [hx, hc, Ne.symm hx]

theorem strrchr_some (s : CStr) (c : Char) (i : Nat) (h : strrchr s c = some i) :
    ∃ front : CStr, s = front ++ c :: s.drop (i + 1) ∧ front.length = i ∧ c ∉ s.drop (i + 1) := by
  induction s generalizing i with
  | nil => simp [strrchr] at h
  | cons x s ih =>
    unfold strrchr at h
    cases hs : strrchr s c with
    | some j =>
      rw [hs] at h
      simp only [Option.some.injEq] at h
      subst h
      obtain ⟨front, h1, h2, h3⟩ := ih j hs
      refine ⟨x :: front, ?_, by simp [h2], by simpa using h3⟩
      simp only [List.drop_succ_cons, List.cons_append, List.cons.injEq, true_and]
      exact h1
    | none =>
      rw [hs] at h
      by_cases hx : x = c
      · simp only [hx, if_true, Option.some.injEq] at h
        subst h
        subst hx
        refine ⟨[], by simp, rfl, ?_⟩
        simpa using (strrchr_none_iff s x).mp hs
      · simp [hx] at h

theorem gnuBasename_no_backslash (p : CStr) : '\\' ∉ gnuBasename p := by
  unfold gnuBasename
  cases h : strrchr p '\\' with
  | none => exact (strrchr_none_iff p _).mp h
  | some i =>
    obtain ⟨_, _, _, h3⟩ := strrchr_some p _ i h
    exact h3

theorem gnuBasename_split (p : CStr) :
    ∃ dir : CStr, p = dir ++ gnuBasename p ∧ (dir = [] ∨ dir.getLast? = some '\\') := by
  unfold gnuBasename
  cases h : strrchr p '\\' with
  | none => exact ⟨[], by simp, Or.inl rfl⟩
  | some i =>
    obtain ⟨front, h1, _, _⟩ := strrchr_some p _ i h
    refine ⟨front ++ ['\\'], ?_, Or.inr (by simp)⟩
    simpa using h1

theorem strrchr_append_cons (dir file : CStr) (c : Char) (h : c ∉ file) :
    strrchr (dir ++ c :: file) c = some dir.length := by
  induction dir with
  | nil =>
    have := (strrchr_none_iff file c).mpr h
    simp [strrchr, this]
  | cons x dir ih => simp [strrchr, ih]

theorem gnuBasename_append (dir file : CStr) (h : '\\' ∉ file) :
    gnuBasename (dir ++ '\\' :: file) = file := by
  unfold gnuBasename
  rw [strrchr_append_cons dir file _ h]
  simp

theorem gnuBasename_self (p : CStr) (h : '\\' ∉ p) : gnuBasename p = p := by
  unfold gnuBasename
  rw [(strrchr_none_iff p _).mpr h]

/-! ## `killProcessByName` -/

theorem killEntry_eq (n : CStr) (e : PROCESSENTRY32) (hk : Bool) (w : World) :
    killEntry n e hk w =
      (hk || (matchesName n e && w.openProcess e.th32ProcessID),
        { w with
          trace := w.trace ++ entryEvents w.openProcess n e
          terminated := w.terminated ++
            walkTerminated w.openProcess w.terminateProcess n [e] }) := by
  obtain ⟨th, op, tp, td, fs, re, rm, en, tr⟩ := w
  by_cases hm : strcasecmp e.szExeFile n = 0 <;>
    cases ho : op e.th32ProcessID <;>
    cases ht : tp e.th32ProcessID <;>
    simp [killEntry, OpenProcess, TerminateProcess, World.emit, matchesName, entryEvents,
      walkTerminated, reallyTerminated, terminatedMessage, hm, ho, ht]

theorem walkSnapshot_eq (n : CStr) (l : List PROCESSENTRY32) (hk : Bool) (w : World) :
    walkSnapshot n l hk w =
      (hk || walkFlag w.openProcess n l,
        { w with
          trace := w.trace ++ walkEvents w.openProcess n l
          terminated := w.terminated ++
            walkTerminated w.openProcess w.terminateProcess n l }) := by
  induction l generalizing hk w with
  | nil =>
    obtain ⟨th, op, tp, td, fs, re, rm, en, tr⟩ := w
    simp [walkSnapshot, walkFlag, walkEvents, walkTerminated]
  | cons e l ih =>
    unfold walkSnapshot
    rw [killEntry_eq]
    simp only [ih]
    obtain ⟨th, op, tp, td, fs, re, rm, en, tr⟩ := w
    simp [walkFlag, walkEvents, walkTerminated, List.filter_cons, Bool.or_assoc]
    split <;> simp

/-- The closed form of `killProcessByName` on a snapshot that can be walked. -/
theorem killProcessByName_processes (w : World) (n : CStr) (first : PROCESSENTRY32)
    (next : List PROCESSENTRY32) (h : w.toolhelp = .processes first next) :
    killProcessByName w n =
      (walkFlag w.openProcess n (first :: next),
        { w with
          trace := w.trace ++ Event.CreateToolhelp32Snapshot ::
            (walkEvents w.openProcess n (first :: next) ++ [.CloseHandle .hSnapShot])
          terminated := w.terminated ++
            walkTerminated w.openProcess w.terminateProcess n (first :: next) }) := by
  unfold killProcessByName
  simp only [World.emit, h, walkSnapshot_eq]
  simp

/-- The closed form of `killProcessByName` when no snapshot handle is obtained. -/
theorem killProcessByName_invalidHandle (w : World) (n : CStr)
    (h : w.toolhelp = .invalidHandle) :
    killProcessByName w n =
      (false, { w with trace := w.trace ++ [.CreateToolhelp32Snapshot,
          .fprintf .stderr "Error: Unable to acquire process list." []] }) := by
  unfold killProcessByName
  simp [World.emit, h]

/-- The closed form of `killProcessByName` when the first entry cannot be read. -/
theorem killProcessByName_noFirstEntry (w : World) (n : CStr)
    (h : w.toolhelp = .noFirstEntry) :
    killProcessByName w n =
      (false, { w with trace := w.trace ++ [.CreateToolhelp32Snapshot,
          .fprintf .stderr "Error: Unable to retrieve process information." [],
          .CloseHandle .hSnapShot] }) := by
  unfold killProcessByName
  simp [World.emit, h]

/-- The walk leaves the files on disk alone. -/
theorem killProcessByName_files (w : World) (n : CStr) :
    (killProcessByName w n).2.files = w.files := by
  cases h : w.toolhelp with
  | invalidHandle => rw [killProcessByName_invalidHandle w n h]
  | noFirstEntry => rw [killProcessByName_noFirstEntry w n h]
  | processes first next => rw [killProcessByName_processes w n first next h]

/-- The trace only grows. -/
theorem killProcessByName_trace (w : World) (n : CStr) :
    ∃ evs, (killProcessByName w n).2.trace = w.trace ++ evs := by
  cases h : w.toolhelp with
  | invalidHandle => rw [killProcessByName_invalidHandle w n h]; exact ⟨_, rfl⟩
  | noFirstEntry => rw [killProcessByName_noFirstEntry w n h]; exact ⟨_, rfl⟩
  | processes first next => rw [killProcessByName_processes w n first next h]; exact ⟨_, rfl⟩


/-! ## `strcasecmp` -/

theorem char_eq_of_toNat_eq (a b : Char) (h : a.toNat = b.toNat) : a = b := by
  rw [← Char.ofNat_toNat a, ← Char.ofNat_toNat b, h]

theorem tolower_toNat_ne_zero (c : Char) (h : c.toNat ≠ 0) : (tolower c).toNat ≠ 0 := by
  unfold tolower
  split
  · rename_i hu
    obtain ⟨h1, h2⟩ := hu
    generalize c.toNat = m at h1 h2
    interval_cases m <;> decide
  · exact h

/-- On strings without an embedded NUL, `strcasecmp` returns `0` exactly when the two
strings are equal character by character after lower-casing. -/
theorem strcasecmp_eq_zero_iff (a b : CStr) (ha : ∀ c ∈ a, c.toNat ≠ 0)
    (hb : ∀ c ∈ b, c.toNat ≠ 0) :
    strcasecmp a b = 0 ↔ a.map tolower = b.map tolower := by
  induction a generalizing b with
  | nil =>
    cases b with
    | nil => simp [strcasecmp]
    | cons y b =>
      have := tolower_toNat_ne_zero y (hb y (by simp))
      simp only [strcasecmp, List.map_nil, List.map_cons]
      constructor
      · intro h; omega
      · intro h; cases h
  | cons x a ih =>
    cases b with
    | nil =>
      have := tolower_toNat_ne_zero x (ha x (by simp))
      simp only [strcasecmp, List.map_nil, List.map_cons]
      constructor
      · intro h; omega
      · intro h; cases h
    | cons y b =>
      have iha := ih b (fun c hc => ha c (by simp [hc])) (fun c hc => hb c (by simp [hc]))
      unfold strcasecmp
      by_cases hxy : tolower x = tolower y
      · simp [hxy, iha]
      · have hne : (tolower x).toNat ≠ (tolower y).toNat :=
          fun h => hxy (char_eq_of_toNat_eq _ _ h)
        simp only [hxy, if_false, List.map_cons, List.cons.injEq, false_and, iff_false]
        omega

/-! ## The sweep over the snapshot -/

theorem openedPids_append (a b : List Event) :
    openedPids (a ++ b) = openedPids a ++ openedPids b := by
  induction a with
  | nil => rfl
  | cons e a ih => cases e <;> simp [openedPids, ih]

theorem terminatePids_append (a b : List Event) :
    terminatePids (a ++ b) = terminatePids a ++ terminatePids b := by
  induction a with
  | nil => rfl
  | cons e a ih => cases e <;> simp [terminatePids, ih]

theorem openedPids_walkEvents (op : DWORD → Bool) (n : CStr) (l : List PROCESSENTRY32) :
    openedPids (walkEvents op n l) =
      (l.filter (matchesName n)).map (fun e => e.th32ProcessID) := by
  induction l with
  | nil => rfl
  | cons e l ih =>
    simp only [walkEvents, openedPids_append, ih, List.filter_cons, entryEvents]
    cases hm : matchesName n e <;> cases ho : op e.th32ProcessID <;>
      simp [openedPids, terminatedMessage]

theorem terminatePids_walkEvents (op : DWORD → Bool) (n : CStr) (l : List PROCESSENTRY32) :
    terminatePids (walkEvents op n l) =
      (l.filter (fun e => matchesName n e && op e.th32ProcessID)).map
        (fun e => e.th32ProcessID) := by
  induction l with
  | nil => rfl
  | cons e l ih =>
    simp only [walkEvents, terminatePids_append, ih, List.filter_cons, entryEvents]
    cases hm : matchesName n e <;> cases ho : op e.th32ProcessID <;>
      simp [terminatePids, terminatedMessage]

theorem walkEvents_no_match (op : DWORD → Bool) (n : CStr) (l : List PROCESSENTRY32)
    (h : l.filter (matchesName n) = []) : walkEvents op n l = [] := by
  induction l with
  | nil => rfl
  | cons e l ih =>
    rw [List.filter_cons] at h
    cases hm : matchesName n e
    · rw [hm] at h
      simp [walkEvents, entryEvents, hm, ih (by simpa using h)]
    · rw [hm] at h
      simp at h

theorem eventsSince_processes (w : World) (n : CStr) (first : PROCESSENTRY32)
    (next : List PROCESSENTRY32) :
    eventsSince w (killProcessByName (w.withProcesses first next) n).2 =
      Event.CreateToolhelp32Snapshot ::
        (walkEvents w.openProcess n (first :: next) ++ [.CloseHandle .hSnapShot]) := by
  rw [killProcessByName_processes (w.withProcesses first next) n first next rfl]
  simp [eventsSince, World.withProcesses]

/-- On a snapshot that can be walked, `killProcessByName` returns true exactly when some
entry with a matching name could be opened; the result of `TerminateProcess` plays no part. -/
theorem killProcessByName_true_iff (w : World) (n : CStr) (first : PROCESSENTRY32)
    (next : List PROCESSENTRY32) :
    (killProcessByName (w.withProcesses first next) n).1 = true ↔
      ∃ e ∈ first :: next, matchesName n e = true ∧ w.openProcess e.th32ProcessID = true := by
  rw [killProcessByName_processes (w.withProcesses first next) n first next rfl]
  simp [walkFlag, World.withProcesses]

/-! ## Claims on `killProcessByName` -/

/-- Claim C1, which the code does not meet. On a machine that runs one process `stuck.exe`
whose handle can be opened but whose `TerminateProcess` call fails, `killProcessByName`
still returns true and prints "Terminated process", although no snapshot entry was
successfully terminated: the return value of `TerminateProcess` is never looked at. -/
theorem killProcessByName_true_though_terminate_failed :
    (killProcessByName stuckWorld "stuck.exe".toList).1 = true
    ∧ (killProcessByName stuckWorld "stuck.exe".toList).2.terminated = []
    ∧ [stuckEntry].filter (reallyTerminated stuckWorld.openProcess
        stuckWorld.terminateProcess "stuck.exe".toList) = []
    ∧ (killProcessByName stuckWorld "stuck.exe".toList).2.trace =
        [.CreateToolhelp32Snapshot, .OpenProcess 4242, .TerminateProcess 4242 9,
          .CloseHandle (.hProcess 4242), terminatedMessage stuckEntry,
          .CloseHandle .hSnapShot] := by
  decide

/-- Claim C7. On every snapshot that is walked (`first` from `Process32First`, `next` from
the `Process32Next` calls) and for every requested name: the pids handed to
`OpenProcess(PROCESS_TERMINATE, ..)` are exactly the pids of the entries whose name gives
`strcasecmp(..) == 0`, once each and in snapshot order, whatever the outcome of the
attempts; `TerminateProcess` is called on exactly those of them that could be opened;
with zero matches the run consists of taking and closing the snapshot, with no attempt and
no output.  `strcasecmp(..) == 0` is equality of the whole strings after lower-casing:
`Notepad.EXE` matches `notepad.exe`, `notepad` does not. -/
theorem killProcessByName_attempts_exactly_the_matches (w : World) (n : CStr)
    (first : PROCESSENTRY32) (next : List PROCESSENTRY32) :
    openedPids (eventsSince w (killProcessByName (w.withProcesses first next) n).2) =
        ((first :: next).filter (matchesName n)).map (fun e => e.th32ProcessID)
    ∧ terminatePids (eventsSince w (killProcessByName (w.withProcesses first next) n).2) =
        ((first :: next).filter
          (fun e => matchesName n e && w.openProcess e.th32ProcessID)).map
          (fun e => e.th32ProcessID)
    ∧ ((first :: next).filter (matchesName n) = [] →
        eventsSince w (killProcessByName (w.withProcesses first next) n).2 =
          [.CreateToolhelp32Snapshot, .CloseHandle .hSnapShot])
    ∧ (∀ e : PROCESSENTRY32, matchesName n e = true ↔ strcasecmp e.szExeFile n = 0)
    ∧ (∀ a b : CStr, (∀ c ∈ a, c.toNat ≠ 0) → (∀ c ∈ b, c.toNat ≠ 0) →
        (strcasecmp a b = 0 ↔ a.map tolower = b.map tolower))
    ∧ strcasecmp "notepad.exe".toList "Notepad.EXE".toList = 0
    ∧ strcasecmp "notepad.exe".toList "notepad".toList ≠ 0 := by
  rw [eventsSince_processes]
  refine ⟨?_, ?_, ?_, ?_, strcasecmp_eq_zero_iff, by decide, by decide⟩
  · simp [openedPids, openedPids_append, openedPids_walkEvents]
  · simp [terminatePids, terminatePids_append, terminatePids_walkEvents]
  · intro h
    rw [walkEvents_no_match _ _ _ h]
    rfl
  · intro e
    simp [matchesName]

/-- Claim C7 on a machine running `stuck.exe` (pid 1, cannot be opened),
`other.exe` (pid 2) and `STUCK.EXE` (pid 3): asked for `Stuck.exe` the attempts are on
pids 1 and 3, the failure on pid 1 does not stop the sweep; asked for `ghost.exe`
nothing is attempted or printed. -/
theorem killProcessByName_attempts_exactly_the_matches_witness :
    openedPids (eventsSince sweepWorld
        (killProcessByName (sweepWorld.withProcesses sweepFirst sweepNext)
          "Stuck.exe".toList).2) = [1, 3]
    ∧ terminatePids (eventsSince sweepWorld
        (killProcessByName (sweepWorld.withProcesses sweepFirst sweepNext)
          "Stuck.exe".toList).2) = [3]
    ∧ eventsSince sweepWorld
        (killProcessByName (sweepWorld.withProcesses sweepFirst sweepNext)
          "ghost.exe".toList).2 = [.CreateToolhelp32Snapshot, .CloseHandle .hSnapShot]
    ∧ (strcasecmp "a.exe".toList "A.EXE".toList = 0 ↔
        "a.exe".toList.map tolower = "A.EXE".toList.map tolower) :=
  ⟨(killProcessByName_attempts_exactly_the_matches sweepWorld "Stuck.exe".toList
      sweepFirst sweepNext).1.trans (by decide),
   (killProcessByName_attempts_exactly_the_matches sweepWorld "Stuck.exe".toList
      sweepFirst sweepNext).2.1.trans (by decide),
   (killProcessByName_attempts_exactly_the_matches sweepWorld "ghost.exe".toList
      sweepFirst sweepNext).2.2.1 (by decide),
   (killProcessByName_attempts_exactly_the_matches sweepWorld []
      sweepFirst sweepNext).2.2.2.2.1 "a.exe".toList "A.EXE".toList
      (by decide) (by decide)⟩

/-- Claim C6 fails on the code. Asked for `ghost.exe`, `killProcessByName`
returns the same value, false, when the snapshot cannot be acquired, when its first
entry cannot be read, and when the snapshot is walked and holds no `ghost.exe`. -/
theorem killProcessByName_snapshot_failure_same_value :
    (killProcessByName noSnapshotWorld "ghost.exe".toList).1 =
        (killProcessByName stuckWorld "ghost.exe".toList).1
    ∧ (killProcessByName World.blank "ghost.exe".toList).1 =
        (killProcessByName stuckWorld "ghost.exe".toList).1
    ∧ noSnapshotWorld.toolhelp = .invalidHandle
    ∧ World.blank.toolhelp = .noFirstEntry
    ∧ stuckWorld.toolhelp = .processes stuckEntry []
    ∧ [stuckEntry].filter (matchesName "ghost.exe".toList) = [] := by
  decide

/-- Claim C6, as amended. `killProcessByName` returns false both when the snapshot fails
(no handle, or no first entry) and when a walked snapshot holds no match; the two differ
only in what is written: a failure writes one error line to `stderr`, a walk with zero
matches writes nothing. -/
theorem killProcessByName_snapshot_failure_only_on_stderr (w : World) (n : CStr)
    (first : PROCESSENTRY32) (next : List PROCESSENTRY32)
    (h : (first :: next).filter (matchesName n) = []) :
    (killProcessByName (w.withToolhelp .invalidHandle) n).1 = false
    ∧ (killProcessByName (w.withToolhelp .noFirstEntry) n).1 = false
    ∧ (killProcessByName (w.withProcesses first next) n).1 = false
    ∧ eventsSince w (killProcessByName (w.withToolhelp .invalidHandle) n).2 =
        [.CreateToolhelp32Snapshot,
          .fprintf .stderr "Error: Unable to acquire process list." []]
    ∧ eventsSince w (killProcessByName (w.withToolhelp .noFirstEntry) n).2 =
        [.CreateToolhelp32Snapshot,
          .fprintf .stderr "Error: Unable to retrieve process information." [],
          .CloseHandle .hSnapShot]
    ∧ eventsSince w (killProcessByName (w.withProcesses first next) n).2 =
        [.CreateToolhelp32Snapshot, .CloseHandle .hSnapShot] := by
  refine ⟨?_, ?_, ?_, ?_, ?_, ?_⟩
  · rw [killProcessByName_invalidHandle _ n rfl]
  · rw [killProcessByName_noFirstEntry _ n rfl]
  · cases hk : (killProcessByName (w.withProcesses first next) n).1 with
    | false => rfl
    | true =>
      obtain ⟨e, he, hm, _⟩ := (killProcessByName_true_iff w n first next).mp hk
      have : e ∈ (first :: next).filter (matchesName n) := List.mem_filter.mpr ⟨he, hm⟩
      rw [h] at this
      cases this
  · rw [killProcessByName_invalidHandle _ n rfl]
    simp [eventsSince, World.withToolhelp]
  · rw [killProcessByName_noFirstEntry _ n rfl]
    simp [eventsSince, World.withToolhelp]
  · rw [eventsSince_processes, walkEvents_no_match _ _ _ h]
    rfl

/-- Claim C6, as amended, on a machine that runs only `stuck.exe`, asked for `ghost.exe`. -/
theorem killProcessByName_snapshot_failure_only_on_stderr_witness :
    [stuckEntry].filter (matchesName "ghost.exe".toList) = []
    ∧ (killProcessByName (stuckWorld.withToolhelp .invalidHandle) "ghost.exe".toList).1
        = false
    ∧ (killProcessByName (stuckWorld.withProcesses stuckEntry []) "ghost.exe".toList).1
        = false
    ∧ eventsSince stuckWorld
        (killProcessByName (stuckWorld.withProcesses stuckEntry []) "ghost.exe".toList).2 =
        [.CreateToolhelp32Snapshot, .CloseHandle .hSnapShot] :=
  ⟨by decide,
   (killProcessByName_snapshot_failure_only_on_stderr stuckWorld "ghost.exe".toList
      stuckEntry [] (by decide)).1,
   (killProcessByName_snapshot_failure_only_on_stderr stuckWorld "ghost.exe".toList
      stuckEntry [] (by decide)).2.2.1,
   (killProcessByName_snapshot_failure_only_on_stderr stuckWorld "ghost.exe".toList
      stuckEntry [] (by decide)).2.2.2.2.2⟩

/-! ## The file operations -/

theorem access_fst (w : World) (path : CStr) :
    (access w path).1 = 0 ↔ fileExists w.files path = true := by
  unfold access
  cases h : fileExists w.files path <;> simp [World.emit, h]

theorem access_files (w : World) (path : CStr) : (access w path).2.files = w.files := by
  unfold access
  cases h : fileExists w.files path <;> simp [World.emit, h]

theorem access_trace (w : World) (path : CStr) :
    (access w path).2.trace = w.trace ++ [.access path] := by
  unfold access
  cases h : fileExists w.files path <;> simp [World.emit, h]

theorem rename_trace (w : World) (old new : CStr) :
    (rename w old new).2.trace = w.trace ++ [.rename old new] := by
  unfold rename
  simp only [World.emit]
  split
  · rfl
  · split <;> rfl

theorem remove_trace (w : World) (path : CStr) :
    (remove w path).2.trace = w.trace ++ [.remove path] := by
  unfold remove
  simp only [World.emit]
  split
  · split <;> rfl
  · rfl

theorem rename_files_of_fail (w : World) (old new : CStr) (h : (rename w old new).1 ≠ 0) :
    (rename w old new).2.files = w.files := by
  unfold rename at h ⊢
  simp only [World.emit] at h ⊢
  split
  · rfl
  · split
    · rename_i hc h0
      simp [hc, h0] at h
    · rfl

theorem remove_files_of_fail (w : World) (path : CStr) (h : (remove w path).1 ≠ 0) :
    (remove w path).2.files = w.files := by
  unfold remove at h ⊢
  simp only [World.emit] at h ⊢
  split
  · split
    · rename_i he h0
      simp [he, h0] at h
    · rfl
  · rfl

theorem fileExists_filter_ne (files : List (CStr × CStr)) (path : CStr) :
    fileExists (files.filter (fun f => decide (f.1 ≠ path))) path = false := by
  simp [fileExists]

theorem remove_gone (w : World) (path : CStr) (h : (remove w path).1 = 0) :
    fileExists (remove w path).2.files path = false := by
  unfold remove at h ⊢
  simp only [World.emit] at h ⊢
  split
  · split
    · exact fileExists_filter_ne _ _
    · rename_i he h0
      simp [he, h0] at h
  · rename_i he
    simp [he] at h

/-- The body of `killRenameOption`, with each call named. -/
theorem killRenameOption_eq (w : World) (p o n : CStr) :
    killRenameOption w p o n =
      if strcasecmp o n = 0 then
        (false, w.emit (.fprintf .stderr
          "Error: New filename '%s' is the same as the original.\n" [.str (gnuBasename n)]))
      else if (killProcessByName w p).1 = false then
        (false, (killProcessByName w p).2.emit (.fprintf .stderr
          "Error: Process '%s' was not found. The file '%s' will not be renamed.\n"
          [.str p, .str (gnuBasename o)]))
      else if (access (killProcessByName w p).2 o).1 = 0 then
        if (rename (access (killProcessByName w p).2 o).2 o n).1 = 0 then
          (true, (rename (access (killProcessByName w p).2 o).2 o n).2.emit
            (.fprintf .stdout "File '%s' was renamed to '%s' successfully.\n"
              [.str (gnuBasename o), .str (gnuBasename n)]))
        else
          (false, (rename (access (killProcessByName w p).2 o).2 o n).2.emit
            (.fprintf .stderr "Error: Unable to rename the file '%s'. %s.\n"
              [.str (gnuBasename o),
                .strerror (rename (access (killProcessByName w p).2 o).2 o n).2.errno]))
      else
        (false, (access (killProcessByName w p).2 o).2.emit
          (.fprintf .stderr "Error: Unable to rename the file '%s'. %s.\n"
            [.str (gnuBasename o), .strerror (access (killProcessByName w p).2 o).2.errno])) := by
  rfl

/-- The body of `killDeleteOption`, with each call named. -/
theorem killDeleteOption_eq (w : World) (p f : CStr) :
    killDeleteOption w p f =
      if (killProcessByName w p).1 = false then
        (false, (killProcessByName w p).2.emit (.fprintf .stderr
          "Error: Process '%s' was not found. The file '%s' will not be deleted.\n"
          [.str p, .str (gnuBasename f)]))
      else if (access (killProcessByName w p).2 f).1 = 0 then
        if (remove (access (killProcessByName w p).2 f).2 f).1 = 0 then
          (true, (remove (access (killProcessByName w p).2 f).2 f).2.emit
            (.fprintf .stdout "File '%s' was deleted successfully.\n"
              [.str (gnuBasename f)]))
        else
          (false, (remove (access (killProcessByName w p).2 f).2 f).2.emit
            (.fprintf .stderr "Error: Unable to delete the file '%s'. %s.\n"
              [.str (gnuBasename f),
                .strerror (remove (access (killProcessByName w p).2 f).2 f).2.errno]))
      else
        (false, (access (killProcessByName w p).2 f).2.emit
          (.fprintf .stderr "Error: Unable to delete the file '%s'. %s.\n"
            [.str (gnuBasename f), .strerror (access (killProcessByName w p).2 f).2.errno])) := by
  rfl

theorem walkEvents_no_file_call (op : DWORD → Bool) (n : CStr) (l : List PROCESSENTRY32) :
    ∀ e ∈ walkEvents op n l, e.isMutation = false ∧ e.paths = [] := by
  induction l with
  | nil => simp [walkEvents]
  | cons x l ih =>
    intro e he
    simp only [walkEvents, List.mem_append] at he
    rcases he with he | he
    · unfold entryEvents at he
      split at he
      · split at he
        · simp only [List.mem_cons, List.mem_singleton, List.not_mem_nil, or_false] at he
          rcases he with rfl | rfl | rfl | rfl <;> simp [Event.isMutation, Event.paths,
            terminatedMessage]
        · simp only [List.mem_singleton] at he
          subst he
          simp [Event.isMutation, Event.paths]
      · cases he
    · exact ih e he

/-- The sweep makes no file system call. -/
theorem killProcessByName_no_file_call (w : World) (n : CStr) :
    ∀ e ∈ eventsSince w (killProcessByName w n).2, e.isMutation = false ∧ e.paths = [] := by
  intro e he
  cases h : w.toolhelp with
  | invalidHandle =>
    rw [killProcessByName_invalidHandle w n h] at he
    simp [eventsSince] at he
    rcases he with rfl | rfl <;> simp [Event.isMutation, Event.paths]
  | noFirstEntry =>
    rw [killProcessByName_noFirstEntry w n h] at he
    simp [eventsSince] at he
    rcases he with rfl | rfl | rfl <;> simp [Event.isMutation, Event.paths]
  | processes first next =>
    rw [killProcessByName_processes w n first next h] at he
    simp only [eventsSince, List.drop_left, List.mem_cons, List.mem_append,
      List.mem_singleton, List.not_mem_nil, or_false] at he
    rcases he with rfl | he | rfl
    · simp [Event.isMutation, Event.paths]
    · exact walkEvents_no_file_call _ _ _ e he
    · simp [Event.isMutation, Event.paths]

/-! ## Claims on `killRenameOption` and `killDeleteOption` -/

/-- Claim C2. When `old_name` and `new_name` are equal under `strcasecmp`, whatever the
process name, `killRenameOption` returns false and all it does is write the "same as the
original" line to `stderr`: no snapshot, no `OpenProcess` or `TerminateProcess`, no
`access`, no `rename`; the files on disk and the set of terminated processes are as before. -/
theorem killRenameOption_same_name_touches_nothing (w : World) (p old new : CStr)
    (h : strcasecmp old new = 0) :
    (killRenameOption w p old new).1 = false
    ∧ eventsSince w (killRenameOption w p old new).2 =
        [.fprintf .stderr "Error: New filename '%s' is the same as the original.\n"
          [.str (gnuBasename new)]]
    ∧ (∀ e ∈ eventsSince w (killRenameOption w p old new).2, e.isSystemCall = false)
    ∧ (killRenameOption w p old new).2.files = w.files
    ∧ (killRenameOption w p old new).2.terminated = w.terminated := by
  rw [killRenameOption_eq]
  simp [h, eventsSince, World.emit, Event.isSystemCall]

/-- Claim C2 on the paths `C:\a.txt` and `C:\A.txt`, on a machine that runs `a.exe`. -/
theorem killRenameOption_same_name_touches_nothing_witness :
    strcasecmp "C:\\a.txt".toList "C:\\A.txt".toList = 0
    ∧ (killRenameOption lockerWorld "a.exe".toList "C:\\a.txt".toList
        "C:\\A.txt".toList).1 = false
    ∧ eventsSince lockerWorld (killRenameOption lockerWorld "a.exe".toList
        "C:\\a.txt".toList "C:\\A.txt".toList).2 =
        [.fprintf .stderr "Error: New filename '%s' is the same as the original.\n"
          [.str (gnuBasename "C:\\A.txt".toList)]] :=
  ⟨by decide,
   (killRenameOption_same_name_touches_nothing lockerWorld "a.exe".toList
      "C:\\a.txt".toList "C:\\A.txt".toList (by decide)).1,
   (killRenameOption_same_name_touches_nothing lockerWorld "a.exe".toList
      "C:\\a.txt".toList "C:\\A.txt".toList (by decide)).2.1⟩

/-- Claim C4. `killRenameOption` returns true exactly when `old_name` and `new_name` differ
under `strcasecmp`, `killProcessByName` returned true, `access(old_name, F_OK)` returned 0
and `rename(old_name, new_name)` returned 0; in every other case it returns false. -/
theorem killRenameOption_true_iff (w : World) (p old new : CStr) :
    ((killRenameOption w p old new).1 = true ↔
      strcasecmp old new ≠ 0
      ∧ (killProcessByName w p).1 = true
      ∧ (access (killProcessByName w p).2 old).1 = 0
      ∧ (rename (access (killProcessByName w p).2 old).2 old new).1 = 0)
    ∧ ((killRenameOption w p old new).1 = false ↔
      (strcasecmp old new = 0
      ∨ (killProcessByName w p).1 = false
      ∨ (access (killProcessByName w p).2 old).1 ≠ 0
      ∨ (rename (access (killProcessByName w p).2 old).2 old new).1 ≠ 0)) := by
  rw [killRenameOption_eq]
  by_cases h1 : strcasecmp old new = 0
  · simp [h1]
  · cases h2 : (killProcessByName w p).1
    · simp [h1]
    · by_cases h3 : (access (killProcessByName w p).2 old).1 = 0
      · by_cases h4 : (rename (access (killProcessByName w p).2 old).2 old new).1 = 0
        · simp [h1, h3, h4]
        · simp [h1, h3, h4]
      · simp [h1, h3]

/-- The trace of `killRenameOption`: the trace of the sweep (of the start when the names
are the same) followed by the events of the file operation. -/
theorem killRenameOption_trace (w : World) (p o n : CStr) :
    (killRenameOption w p o n).2.trace =
      (if strcasecmp o n = 0 then w.trace else (killProcessByName w p).2.trace) ++
        renameEvents p o n (decide (strcasecmp o n = 0)) (killProcessByName w p).1
          (access (killProcessByName w p).2 o).1
          (rename (access (killProcessByName w p).2 o).2 o n).1
          (killRenameOption w p o n).2.errno := by
  rw [killRenameOption_eq]
  by_cases h1 : strcasecmp o n = 0
  · simp [h1, renameEvents, World.emit]
  · cases h2 : (killProcessByName w p).1
    · simp [h1, renameEvents, World.emit]
    · by_cases h3 : (access (killProcessByName w p).2 o).1 = 0
      · by_cases h4 : (rename (access (killProcessByName w p).2 o).2 o n).1 = 0
        · simp [h1, h3, h4, renameEvents, World.emit, rename_trace, access_trace]
        · simp [h1, h3, h4, renameEvents, World.emit, rename_trace, access_trace]
      · simp [h1, h3, renameEvents, World.emit, access_trace]

/-- The trace of `killDeleteOption`: the trace of the sweep followed by the events of the
file operation. -/
theorem killDeleteOption_trace (w : World) (p f : CStr) :
    (killDeleteOption w p f).2.trace =
      (killProcessByName w p).2.trace ++
        deleteEvents p f (killProcessByName w p).1
          (access (killProcessByName w p).2 f).1
          (remove (access (killProcessByName w p).2 f).2 f).1
          (killDeleteOption w p f).2.errno := by
  rw [killDeleteOption_eq]
  cases h2 : (killProcessByName w p).1
  · simp [deleteEvents, World.emit]
  · by_cases h3 : (access (killProcessByName w p).2 f).1 = 0
    · by_cases h4 : (remove (access (killProcessByName w p).2 f).2 f).1 = 0
      · simp [h3, h4, deleteEvents, World.emit, remove_trace, access_trace]
      · simp [h3, h4, deleteEvents, World.emit, remove_trace, access_trace]
    · simp [h3, deleteEvents, World.emit, access_trace]

/-- The files after `killRenameOption`: those `rename` left when it was reached and
succeeded, else the files as they were. -/
theorem killRenameOption_files (w : World) (p o n : CStr) :
    (killRenameOption w p o n).2.files =
      if (killRenameOption w p o n).1 = true then
        (rename (access (killProcessByName w p).2 o).2 o n).2.files
      else w.files := by
  rw [killRenameOption_eq]
  by_cases h1 : strcasecmp o n = 0
  · simp [h1, World.emit]
  · cases h2 : (killProcessByName w p).1
    · simp [h1, World.emit, killProcessByName_files]
    · by_cases h3 : (access (killProcessByName w p).2 o).1 = 0
      · by_cases h4 : (rename (access (killProcessByName w p).2 o).2 o n).1 = 0
        · simp [h1, h3, h4, World.emit]
        · simp [h1, h3, h4, World.emit, rename_files_of_fail _ _ _ h4, access_files,
            killProcessByName_files]
      · simp [h1, h3, World.emit, access_files, killProcessByName_files]

/-- The files after `killDeleteOption`: those `remove` left when it was reached and
succeeded, else the files as they were. -/
theorem killDeleteOption_files (w : World) (p f : CStr) :
    (killDeleteOption w p f).2.files =
      if (killDeleteOption w p f).1 = true then
        (remove (access (killProcessByName w p).2 f).2 f).2.files
      else w.files := by
  rw [killDeleteOption_eq]
  cases h2 : (killProcessByName w p).1
  · simp [World.emit, killProcessByName_files]
  · by_cases h3 : (access (killProcessByName w p).2 f).1 = 0
    · by_cases h4 : (remove (access (killProcessByName w p).2 f).2 f).1 = 0
      · simp [h3, h4, World.emit]
      · simp [h3, h4, World.emit, remove_files_of_fail _ _ h4, access_files,
          killProcessByName_files]
    · simp [h3, World.emit, access_files, killProcessByName_files]

/-- `killDeleteOption` returns true exactly when the three calls succeed. -/
theorem killDeleteOption_fst (w : World) (p f : CStr) :
    (killDeleteOption w p f).1 = true ↔
      (killProcessByName w p).1 = true
      ∧ (access (killProcessByName w p).2 f).1 = 0
      ∧ (remove (access (killProcessByName w p).2 f).2 f).1 = 0 := by
  rw [killDeleteOption_eq]
  cases h2 : (killProcessByName w p).1
  · simp
  · by_cases h3 : (access (killProcessByName w p).2 f).1 = 0
    · by_cases h4 : (remove (access (killProcessByName w p).2 f).2 f).1 = 0
      · simp [h3, h4]
      · simp [h3, h4]
    · simp [h3]

/-- The events of a whole run of `killRenameOption`. -/
theorem killRenameOption_events (w : World) (p o n : CStr) :
    eventsSince w (killRenameOption w p o n).2 =
      (if strcasecmp o n = 0 then [] else eventsSince w (killProcessByName w p).2) ++
        renameEvents p o n (decide (strcasecmp o n = 0)) (killProcessByName w p).1
          (access (killProcessByName w p).2 o).1
          (rename (access (killProcessByName w p).2 o).2 o n).1
          (killRenameOption w p o n).2.errno := by
  obtain ⟨kev, hk⟩ := killProcessByName_trace w p
  unfold eventsSince
  rw [killRenameOption_trace, hk]
  by_cases h1 : strcasecmp o n = 0 <;> simp [h1]

/-- The events of a whole run of `killDeleteOption`. -/
theorem killDeleteOption_events (w : World) (p f : CStr) :
    eventsSince w (killDeleteOption w p f).2 =
      eventsSince w (killProcessByName w p).2 ++
        deleteEvents p f (killProcessByName w p).1
          (access (killProcessByName w p).2 f).1
          (remove (access (killProcessByName w p).2 f).2 f).1
          (killDeleteOption w p f).2.errno := by
  obtain ⟨kev, hk⟩ := killProcessByName_trace w p
  unfold eventsSince
  rw [killDeleteOption_trace, hk]
  simp

/-- `killRenameOption` returns true exactly when the check and the three calls succeed. -/
theorem killRenameOption_fst (w : World) (p o n : CStr) :
    (killRenameOption w p o n).1 = true ↔
      strcasecmp o n ≠ 0
      ∧ (killProcessByName w p).1 = true
      ∧ (access (killProcessByName w p).2 o).1 = 0
      ∧ (rename (access (killProcessByName w p).2 o).2 o n).1 = 0 := by
  rw [killRenameOption_eq]
  by_cases h1 : strcasecmp o n = 0
  · simp [h1]
  · cases h2 : (killProcessByName w p).1
    · simp [h1]
    · by_cases h3 : (access (killProcessByName w p).2 o).1 = 0
      · by_cases h4 : (rename (access (killProcessByName w p).2 o).2 o n).1 = 0
        · simp [h1, h3, h4]
        · simp [h1, h3, h4]
      · simp [h1, h3]

/-- After the sweep `access` answers for the disk as it was before the sweep. -/
theorem access_after_kill (w : World) (p path : CStr) :
    (access (killProcessByName w p).2 path).1 = 0 ↔ fileExists w.files path = true := by
  rw [access_fst, killProcessByName_files]

theorem renameEvents_no_mutation (p o n : CStr) (same killed : Bool) (found moved : Int)
    (errno : Nat) (h : killed = false ∨ found ≠ 0) :
    ∀ e ∈ renameEvents p o n same killed found moved errno, e.isMutation = false := by
  intro e he
  unfold renameEvents at he
  cases same <;> cases killed <;> by_cases hf : found = 0 <;>
    simp_all [Event.isMutation]
  · rcases he with rfl | rfl <;> rfl

theorem deleteEvents_no_mutation (p f : CStr) (killed : Bool) (found gone : Int)
    (errno : Nat) (h : killed = false ∨ found ≠ 0) :
    ∀ e ∈ deleteEvents p f killed found gone errno, e.isMutation = false := by
  intro e he
  unfold deleteEvents at he
  cases killed <;> by_cases hf : found = 0 <;> simp_all [Event.isMutation]
  · rcases he with rfl | rfl <;> rfl

/-- The file operation is gated on the flag `killProcessByName` returns. In
`killRenameOption` and in `killDeleteOption`: when `killProcessByName` returned false, or
the file is not on disk at the existence check, the operation returns false, the files on
disk are unchanged and no `rename` / `remove` call is made; and whenever a `rename` /
`remove` call is made, `killProcessByName` had returned true, the file existed, and the
call comes after the whole sweep and after the `access` check. -/
theorem file_mutation_only_after_kill_and_check (w : World) (p old new f : CStr) :
    (((killProcessByName w p).1 = false ∨ fileExists w.files old = false) →
      (killRenameOption w p old new).1 = false
      ∧ (killRenameOption w p old new).2.files = w.files
      ∧ ∀ e ∈ eventsSince w (killRenameOption w p old new).2, e.isMutation = false)
    ∧ (((killProcessByName w p).1 = false ∨ fileExists w.files f = false) →
      (killDeleteOption w p f).1 = false
      ∧ (killDeleteOption w p f).2.files = w.files
      ∧ ∀ e ∈ eventsSince w (killDeleteOption w p f).2, e.isMutation = false)
    ∧ ((∃ e ∈ eventsSince w (killRenameOption w p old new).2, e.isMutation = true) →
      (killProcessByName w p).1 = true
      ∧ fileExists w.files old = true
      ∧ ∃ msg, eventsSince w (killRenameOption w p old new).2 =
          eventsSince w (killProcessByName w p).2 ++ [.access old, .rename old new, msg])
    ∧ ((∃ e ∈ eventsSince w (killDeleteOption w p f).2, e.isMutation = true) →
      (killProcessByName w p).1 = true
      ∧ fileExists w.files f = true
      ∧ ∃ msg, eventsSince w (killDeleteOption w p f).2 =
          eventsSince w (killProcessByName w p).2 ++ [.access f, .remove f, msg]) := by
  have hren : ∀ (_ : (killProcessByName w p).1 = false
      ∨ (access (killProcessByName w p).2 old).1 ≠ 0),
      ∀ e ∈ eventsSince w (killRenameOption w p old new).2, e.isMutation = false := by
    intro h e he
    rw [killRenameOption_events, List.mem_append] at he
    rcases he with he | he
    · split at he
      · cases he
      · exact (killProcessByName_no_file_call w p e he).1
    · exact renameEvents_no_mutation _ _ _ _ _ _ _ _ h e he
  have hdel : ∀ (_ : (killProcessByName w p).1 = false
      ∨ (access (killProcessByName w p).2 f).1 ≠ 0),
      ∀ e ∈ eventsSince w (killDeleteOption w p f).2, e.isMutation = false := by
    intro h e he
    rw [killDeleteOption_events, List.mem_append] at he
    rcases he with he | he
    · exact (killProcessByName_no_file_call w p e he).1
    · exact deleteEvents_no_mutation _ _ _ _ _ _ h e he
  refine ⟨?_, ?_, ?_, ?_⟩
  · intro h
    have h' : (killProcessByName w p).1 = false
        ∨ (access (killProcessByName w p).2 old).1 ≠ 0 := by
      rcases h with h | h
      · exact Or.inl h
      · exact Or.inr (fun h0 => by rw [access_after_kill] at h0; rw [h] at h0; cases h0)
    have hfst : (killRenameOption w p old new).1 = false := by
      cases hr : (killRenameOption w p old new).1 with
      | false => rfl
      | true =>
        obtain ⟨_, h2, h3, _⟩ := (killRenameOption_fst w p old new).mp hr
        rcases h' with h' | h'
        · rw [h2] at h'; cases h'
        · exact absurd h3 h'
    refine ⟨hfst, ?_, hren h'⟩
    rw [killRenameOption_files, hfst]
    simp
  · intro h
    have h' : (killProcessByName w p).1 = false
        ∨ (access (killProcessByName w p).2 f).1 ≠ 0 := by
      rcases h with h | h
      · exact Or.inl h
      · exact Or.inr (fun h0 => by rw [access_after_kill] at h0; rw [h] at h0; cases h0)
    have hfst : (killDeleteOption w p f).1 = false := by
      cases hr : (killDeleteOption w p f).1 with
      | false => rfl
      | true =>
        obtain ⟨h2, h3, _⟩ := (killDeleteOption_fst w p f).mp hr
        rcases h' with h' | h'
        · rw [h2] at h'; cases h'
        · exact absurd h3 h'
    refine ⟨hfst, ?_, hdel h'⟩
    rw [killDeleteOption_files, hfst]
    simp
  · rintro ⟨e, he, hm⟩
    have hk : (killProcessByName w p).1 = true := by
      cases hk : (killProcessByName w p).1 with
      | true => rfl
      | false => rw [hren (Or.inl hk) e he] at hm; cases hm
    have ha : (access (killProcessByName w p).2 old).1 = 0 := by
      by_contra ha
      rw [hren (Or.inr ha) e he] at hm
      cases hm
    refine ⟨hk, (access_after_kill w p old).mp ha, ?_⟩
    by_cases hs : strcasecmp old new = 0
    · rw [killRenameOption_events] at he
      simp [hs, renameEvents] at he
      subst he
      cases hm
    · rw [killRenameOption_events]
      by_cases h4 : (rename (access (killProcessByName w p).2 old).2 old new).1 = 0
      · simp only [hs, hk, ha, h4, renameEvents, decide_False, if_false, if_true,
          Bool.true_eq_false, Bool.false_eq_true]
        exact ⟨_, rfl⟩
      · simp only [hs, hk, ha, h4, renameEvents, decide_False, if_false, if_true,
          Bool.true_eq_false, Bool.false_eq_true]
        exact ⟨_, rfl⟩
  · rintro ⟨e, he, hm⟩
    have hk : (killProcessByName w p).1 = true := by
      cases hk : (killProcessByName w p).1 with
      | true => rfl
      | false => rw [hdel (Or.inl hk) e he] at hm; cases hm
    have ha : (access (killProcessByName w p).2 f).1 = 0 := by
      by_contra ha
      rw [hdel (Or.inr ha) e he] at hm
      cases hm
    refine ⟨hk, (access_after_kill w p f).mp ha, ?_⟩
    rw [killDeleteOption_events]
    by_cases h4 : (remove (access (killProcessByName w p).2 f).2 f).1 = 0
    · simp only [hk, ha, h4, deleteEvents, if_false, if_true, Bool.true_eq_false]
      exact ⟨_, rfl⟩
    · simp only [hk, ha, h4, deleteEvents, if_false, if_true, Bool.true_eq_false]
      exact ⟨_, rfl⟩

/-- The gate on a machine that runs `a.exe` and holds the file `a.exe`: asked to kill
`ghost.exe`, nothing is renamed; asked to kill `a.exe` and delete the missing `gone.txt`,
nothing is deleted; asked to kill `a.exe` and rename or delete `a.exe`, the `rename` /
`remove` call is made after the sweep and the check. -/
theorem file_mutation_only_after_kill_and_check_witness :
    (killProcessByName lockerWorld "ghost.exe".toList).1 = false
    ∧ ((killRenameOption lockerWorld "ghost.exe".toList "a.exe".toList "b.exe".toList).1
        = false
      ∧ (killRenameOption lockerWorld "ghost.exe".toList "a.exe".toList
          "b.exe".toList).2.files = lockerWorld.files
      ∧ ∀ e ∈ eventsSince lockerWorld (killRenameOption lockerWorld "ghost.exe".toList
          "a.exe".toList "b.exe".toList).2, e.isMutation = false)
    ∧ fileExists lockerWorld.files "gone.txt".toList = false
    ∧ ((killDeleteOption lockerWorld "a.exe".toList "gone.txt".toList).1 = false
      ∧ (killDeleteOption lockerWorld "a.exe".toList "gone.txt".toList).2.files
          = lockerWorld.files
      ∧ ∀ e ∈ eventsSince lockerWorld (killDeleteOption lockerWorld "a.exe".toList
          "gone.txt".toList).2, e.isMutation = false)
    ∧ ((killProcessByName lockerWorld "a.exe".toList).1 = true
      ∧ fileExists lockerWorld.files "a.exe".toList = true
      ∧ ∃ msg, eventsSince lockerWorld (killRenameOption lockerWorld "a.exe".toList
          "a.exe".toList "b.exe".toList).2 =
          eventsSince lockerWorld (killProcessByName lockerWorld "a.exe".toList).2 ++
            [.access "a.exe".toList, .rename "a.exe".toList "b.exe".toList, msg])
    ∧ ((killProcessByName lockerWorld "a.exe".toList).1 = true
      ∧ fileExists lockerWorld.files "a.exe".toList = true
      ∧ ∃ msg, eventsSince lockerWorld (killDeleteOption lockerWorld "a.exe".toList
          "a.exe".toList).2 =
          eventsSince lockerWorld (killProcessByName lockerWorld "a.exe".toList).2 ++
            [.access "a.exe".toList, .remove "a.exe".toList, msg]) :=
  ⟨by decide,
   (file_mutation_only_after_kill_and_check lockerWorld "ghost.exe".toList "a.exe".toList
      "b.exe".toList "a.exe".toList).1 (Or.inl (by decide)),
   by decide,
   (file_mutation_only_after_kill_and_check lockerWorld "a.exe".toList "a.exe".toList
      "b.exe".toList "gone.txt".toList).2.1 (Or.inr (by decide)),
   (file_mutation_only_after_kill_and_check lockerWorld "a.exe".toList "a.exe".toList
      "b.exe".toList "a.exe".toList).2.2.1
      ⟨.rename "a.exe".toList "b.exe".toList, by decide, rfl⟩,
   (file_mutation_only_after_kill_and_check lockerWorld "a.exe".toList "a.exe".toList
      "b.exe".toList "a.exe".toList).2.2.2
      ⟨.remove "a.exe".toList, by decide, rfl⟩⟩

/-- Claim C3, which the code does not meet. On a machine that runs `a.exe` (the handle
opens, `TerminateProcess` fails) and holds the file `a.exe`, no process is killed: the
set of terminated processes stays empty.  Yet `killProcessByName` returns true, so
`killRenameOption` calls `rename`, returns true and leaves the file under the new name, and
`killDeleteOption` calls `remove`, returns true and leaves the disk empty. -/
theorem file_mutation_though_no_process_killed :
    (killProcessByName zombieWorld "a.exe".toList).2.terminated = []
    ∧ [(⟨"a.exe".toList, 7⟩ : PROCESSENTRY32)].filter (reallyTerminated
        zombieWorld.openProcess zombieWorld.terminateProcess "a.exe".toList) = []
    ∧ (killProcessByName zombieWorld "a.exe".toList).1 = true
    ∧ (killRenameOption zombieWorld "a.exe".toList "a.exe".toList "b.exe".toList).1 = true
    ∧ (killRenameOption zombieWorld "a.exe".toList "a.exe".toList "b.exe".toList).2.terminated
        = []
    ∧ (killRenameOption zombieWorld "a.exe".toList "a.exe".toList "b.exe".toList).2.files
        = [("b.exe".toList, "MZ".toList)]
    ∧ Event.rename "a.exe".toList "b.exe".toList ∈ eventsSince zombieWorld
        (killRenameOption zombieWorld "a.exe".toList "a.exe".toList "b.exe".toList).2
    ∧ (killDeleteOption zombieWorld "a.exe".toList "a.exe".toList).1 = true
    ∧ (killDeleteOption zombieWorld "a.exe".toList "a.exe".toList).2.terminated = []
    ∧ (killDeleteOption zombieWorld "a.exe".toList "a.exe".toList).2.files = []
    ∧ Event.remove "a.exe".toList ∈ eventsSince zombieWorld
        (killDeleteOption zombieWorld "a.exe".toList "a.exe".toList).2
    ∧ zombieWorld.files = [("a.exe".toList, "MZ".toList)] := by
  decide

/-- Claim C5. `killDeleteOption` returns true exactly when `killProcessByName` returned
true, `access(filename, F_OK)` returned 0 (the file was on disk) and `remove(filename)`
returned 0; after a call that returned true the path is no longer on disk; and nothing
compares the two arguments: the call succeeds on a process and a file of the same name. -/
theorem killDeleteOption_true_iff (w : World) (p f : CStr) :
    ((killDeleteOption w p f).1 = true ↔
      (killProcessByName w p).1 = true
      ∧ (access (killProcessByName w p).2 f).1 = 0
      ∧ (remove (access (killProcessByName w p).2 f).2 f).1 = 0)
    ∧ ((access (killProcessByName w p).2 f).1 = 0 ↔ fileExists w.files f = true)
    ∧ ((killDeleteOption w p f).1 = true →
      fileExists (killDeleteOption w p f).2.files f = false
      ∧ (access (killDeleteOption w p f).2 f).1 ≠ 0)
    ∧ (strcasecmp "a.exe".toList "a.exe".toList = 0
      ∧ (killDeleteOption lockerWorld "a.exe".toList "a.exe".toList).1 = true) := by
  refine ⟨killDeleteOption_fst w p f, access_after_kill w p f, ?_, by decide, by decide⟩
  intro h
  have hgone : fileExists (killDeleteOption w p f).2.files f = false := by
    rw [killDeleteOption_files, h]
    simp only [if_true]
    exact remove_gone _ _ ((killDeleteOption_fst w p f).mp h).2.2
  refine ⟨hgone, ?_⟩
  intro h0
  rw [access_fst, hgone] at h0
  cases h0

/-- Claim C5 on a machine that runs `a.exe` and holds the file `a.exe`: the process is
killed, the file deleted, and the path is gone afterwards. -/
theorem killDeleteOption_true_iff_witness :
    (killDeleteOption lockerWorld "a.exe".toList "a.exe".toList).1 = true
    ∧ fileExists lockerWorld.files "a.exe".toList = true
    ∧ fileExists (killDeleteOption lockerWorld "a.exe".toList "a.exe".toList).2.files
        "a.exe".toList = false
    ∧ (access (killDeleteOption lockerWorld "a.exe".toList "a.exe".toList).2
        "a.exe".toList).1 ≠ 0 :=
  ⟨by decide, by decide,
   ((killDeleteOption_true_iff lockerWorld "a.exe".toList "a.exe".toList).2.2.1
      (by decide)).1,
   ((killDeleteOption_true_iff lockerWorld "a.exe".toList "a.exe".toList).2.2.1
      (by decide)).2⟩

/-! ## Claim on `gnuBasename` -/

theorem renameEvents_names (p o n : CStr) (same killed : Bool) (found moved : Int)
    (errno : Nat) :
    ∀ e ∈ renameEvents p o n same killed found moved errno,
      (∀ x ∈ e.paths, x = o ∨ x = n)
      ∧ (∀ s ∈ e.shown, s = p ∨ s = gnuBasename o ∨ s = gnuBasename n) := by
  intro e he
  unfold renameEvents at he
  cases same <;> cases killed <;> by_cases hf : found = 0 <;> by_cases hm : moved = 0 <;>
    simp [hf, hm] at he <;>
    (try rcases he with rfl | rfl | rfl) <;> simp [Event.paths, Event.shown]

theorem deleteEvents_names (p f : CStr) (killed : Bool) (found gone : Int) (errno : Nat) :
    ∀ e ∈ deleteEvents p f killed found gone errno,
      (∀ x ∈ e.paths, x = f) ∧ (∀ s ∈ e.shown, s = p ∨ s = gnuBasename f) := by
  intro e he
  unfold deleteEvents at he
  cases killed <;> by_cases hf : found = 0 <;> by_cases hm : gone = 0 <;>
    simp [hf, hm] at he <;>
    (try rcases he with rfl | rfl | rfl) <;> simp [Event.paths, Event.shown]

/-- Claim C10. For every path `p`: `p` is a directory part, empty or ending in a backslash,
followed by `gnuBasename p`; `gnuBasename p` holds no backslash; it is `p` itself when `p`
holds no backslash and otherwise what follows the last backslash.  In what
`killDeleteOption` and `killRenameOption` do after the sweep, every path handed to
`access`, `rename` or `remove` is the full path as given, and every string printed is the
process name or the `gnuBasename` of a path. -/
theorem gnuBasename_is_file_name (p : CStr) :
    (∃ dir : CStr, p = dir ++ gnuBasename p ∧ (dir = [] ∨ dir.getLast? = some '\\'))
    ∧ '\\' ∉ gnuBasename p
    ∧ ('\\' ∉ p → gnuBasename p = p)
    ∧ (∀ dir file : CStr, '\\' ∉ file → p = dir ++ '\\' :: file → gnuBasename p = file)
    ∧ (∀ (w : World) (proc : CStr),
        ∀ e ∈ eventsSince (killProcessByName w proc).2 (killDeleteOption w proc p).2,
          (∀ x ∈ e.paths, x = p) ∧ (∀ s ∈ e.shown, s = proc ∨ s = gnuBasename p))
    ∧ (∀ (w : World) (proc q : CStr),
        ∀ e ∈ eventsSince (if strcasecmp p q = 0 then w else (killProcessByName w proc).2)
            (killRenameOption w proc p q).2,
          (∀ x ∈ e.paths, x = p ∨ x = q)
          ∧ (∀ s ∈ e.shown, s = proc ∨ s = gnuBasename p ∨ s = gnuBasename q)) := by
  refine ⟨gnuBasename_split p, gnuBasename_no_backslash p, gnuBasename_self p, ?_, ?_, ?_⟩
  · intro dir file hf hp
    rw [hp]
    exact gnuBasename_append dir file hf
  · intro w proc e he
    unfold eventsSince at he
    rw [killDeleteOption_trace, List.drop_left] at he
    exact deleteEvents_names _ _ _ _ _ _ e he
  · intro w proc q e he
    unfold eventsSince at he
    rw [killRenameOption_trace] at he
    have he' : e ∈ renameEvents proc p q (decide (strcasecmp p q = 0))
        (killProcessByName w proc).1 (access (killProcessByName w proc).2 p).1
        (rename (access (killProcessByName w proc).2 p).2 p q).1
        (killRenameOption w proc p q).2.errno := by
      by_cases hs : strcasecmp p q = 0
      · simpa [hs] using he
      · simpa [hs] using he
    exact renameEvents_names _ _ _ _ _ _ _ _ e he'

/-- Claim C10 on the path `C:\dir\a.txt`: the base name is `a.txt`, a successful
`killDeleteOption` calls `access` and `remove` with the full path and prints `a.txt`, and
a successful `killRenameOption` to `C:\dir\b.txt` prints `a.txt` and `b.txt`. -/
theorem gnuBasename_is_file_name_witness :
    gnuBasename "C:\\dir\\a.txt".toList = "a.txt".toList
    ∧ gnuBasename "a.txt".toList = "a.txt".toList
    ∧ eventsSince (killProcessByName pathWorld "locker.exe".toList).2
        (killDeleteOption pathWorld "locker.exe".toList "C:\\dir\\a.txt".toList).2 =
        [.access "C:\\dir\\a.txt".toList, .remove "C:\\dir\\a.txt".toList,
          .fprintf .stdout "File '%s' was deleted successfully.\n"
            [.str "a.txt".toList]]
    ∧ (∀ x ∈ (Event.remove "C:\\dir\\a.txt".toList).paths, x = "C:\\dir\\a.txt".toList)
    ∧ (∀ s ∈ (Event.fprintf .stdout "File '%s' was renamed to '%s' successfully.\n"
          [.str "a.txt".toList, .str "b.txt".toList]).shown,
        s = "locker.exe".toList ∨ s = gnuBasename "C:\\dir\\a.txt".toList
          ∨ s = gnuBasename "C:\\dir\\b.txt".toList) :=
  ⟨(gnuBasename_is_file_name "C:\\dir\\a.txt".toList).2.2.2.1 "C:\\dir".toList
      "a.txt".toList (by decide) (by decide),
   (gnuBasename_is_file_name "a.txt".toList).2.2.1 (by decide),
   by decide,
   ((gnuBasename_is_file_name "C:\\dir\\a.txt".toList).2.2.2.2.1 pathWorld
      "locker.exe".toList (.remove "C:\\dir\\a.txt".toList) (by decide)).1,
   ((gnuBasename_is_file_name "C:\\dir\\a.txt".toList).2.2.2.2.2 pathWorld
      "locker.exe".toList "C:\\dir\\b.txt".toList
      (.fprintf .stdout "File '%s' was renamed to '%s' successfully.\n"
        [.str "a.txt".toList, .str "b.txt".toList]) (by decide)).2⟩

/-! ## Command line mode -/

/-- One turn of the option loop, by the flag the option character spells. -/
theorem argsLoop_cons (w : World) (a : CStr) (g : Getopt) (rest : List Getopt) (s : Locals) :
    argsLoop w a (g :: rest) s =
      match flagOf g.option with
      | none => some (returnUsage w a)
      | some f =>
        if s.blocks f = true then some (returnUsage w a)
        else argsLoop w a rest (s.store g.optarg f) := by
  rw [argsLoop]
  unfold flagOf
  by_cases hk : g.option = 'K' ∨ g.option = 'k'
  · simp only [hk, if_true, Locals.blocks, Locals.store, decide_eq_true_eq]
  · by_cases hr : g.option = 'R' ∨ g.option = 'r'
    · simp only [hk, hr, if_true, if_false, Locals.blocks, Locals.store, decide_eq_true_eq]
    · by_cases hn : g.option = 'N' ∨ g.option = 'n'
      · simp only [hk, hr, hn, if_true, if_false, Locals.blocks, Locals.store,
          decide_eq_true_eq]
      · by_cases hd : g.option = 'D' ∨ g.option = 'd'
        · simp only [hk, hr, hn, hd, if_true, if_false, Locals.blocks, Locals.store,
            decide_eq_true_eq]
        · simp only [hk, hr, hn, hd, if_false]

theorem blocks_store_self (s : Locals) (x : CStr) (f : Flag) :
    (s.store x f).blocks f = true := by
  cases f <;> simp [Locals.blocks, Locals.store]

theorem blocks_store_mono (s : Locals) (x : CStr) (f0 f : Flag) (h : s.blocks f = true) :
    (s.store x f0).blocks f = true := by
  cases f0 <;> cases f <;> simp_all [Locals.blocks, Locals.store]

theorem blocks_store_r_d (s : Locals) (x : CStr) :
    (s.store x .r).blocks .d = true ∧ (s.store x .d).blocks .r = true := by
  simp [Locals.blocks, Locals.store]

/-- An option whose flag the locals block ends the loop with the usage message. -/
theorem argsLoop_blocked (w : World) (a : CStr) (opts : List Getopt) (s : Locals)
    (h : ∃ g ∈ opts, ∃ f, flagOf g.option = some f ∧ s.blocks f = true) :
    argsLoop w a opts s = some (returnUsage w a) := by
  induction opts generalizing s with
  | nil =>
    obtain ⟨g, hg, _⟩ := h
    cases hg
  | cons g0 rest ih =>
    rw [argsLoop_cons]
    cases h0 : flagOf g0.option with
    | none => rfl
    | some f0 =>
      simp only
      by_cases hb : s.blocks f0 = true
      · simp [hb]
      · simp only [hb, if_false]
        obtain ⟨g, hg, f, hf, hbf⟩ := h
        rcases List.mem_cons.mp hg with rfl | hg
        · rw [h0] at hf
          cases hf
          exact absurd hbf hb
        · exact ih _ ⟨g, hg, f, hf, blocks_store_mono s _ f0 f hbf⟩

theorem flagCount_cons (f : Flag) (g : Getopt) (rest : List Getopt) :
    flagCount f (g :: rest) =
      flagCount f rest + if flagOf g.option = some f then 1 else 0 := by
  simp [flagCount, List.countP_cons]

theorem exists_of_flagCount_pos (f : Flag) (opts : List Getopt) (h : 1 ≤ flagCount f opts) :
    ∃ g ∈ opts, flagOf g.option = some f := by
  have := List.countP_pos_iff.mp (show 0 < opts.countP _ from h)
  obtain ⟨g, hg, hp⟩ := this
  exact ⟨g, hg, by simpa using hp⟩

/-- A second occurrence of a flag, or a rename flag together with a delete flag, ends
the loop with the usage message. -/
theorem argsLoop_conflict (w : World) (a : CStr) (opts : List Getopt) (s : Locals)
    (h : (∃ f, 2 ≤ flagCount f opts)
      ∨ (1 ≤ flagCount .r opts ∧ 1 ≤ flagCount .d opts)) :
    argsLoop w a opts s = some (returnUsage w a) := by
  induction opts generalizing s with
  | nil =>
    rcases h with ⟨f, hf⟩ | ⟨hr, _⟩
    · simp [flagCount] at hf
    · simp [flagCount] at hr
  | cons g0 rest ih =>
    rw [argsLoop_cons]
    cases h0 : flagOf g0.option with
    | none => rfl
    | some f0 =>
      simp only
      by_cases hb : s.blocks f0 = true
      · simp [hb]
      · simp only [hb, if_false]
        rcases h with ⟨f, hf⟩ | ⟨hr, hd⟩
        · rw [flagCount_cons, h0] at hf
          by_cases hff : f0 = f
          · subst hff
            simp only [if_true] at hf
            obtain ⟨g, hg, hgf⟩ := exists_of_flagCount_pos f0 rest (by omega)
            exact argsLoop_blocked w a rest _ ⟨g, hg, f0, hgf, blocks_store_self s _ f0⟩
          · have : (some f0 = some f) = False := by simp [hff]
            simp only [this, if_false] at hf
            exact ih _ (Or.inl ⟨f, by omega⟩)
        · rw [flagCount_cons, h0] at hr hd
          cases f0 with
          | r =>
            simp at hd
            obtain ⟨g, hg, hgf⟩ := exists_of_flagCount_pos .d rest hd
            exact argsLoop_blocked w a rest _ ⟨g, hg, .d, hgf, (blocks_store_r_d s _).1⟩
          | d =>
            simp at hr
            obtain ⟨g, hg, hgf⟩ := exists_of_flagCount_pos .r rest hr
            exact argsLoop_blocked w a rest _ ⟨g, hg, .r, hgf, (blocks_store_r_d s _).2⟩
          | k =>
            simp at hr hd
            exact ih _ (Or.inr ⟨hr, hd⟩)
          | n =>
            simp at hr hd
            exact ih _ (Or.inr ⟨hr, hd⟩)

theorem printUsage_eq (w : World) (a : CStr) :
    (printUsage w a).1 = EXIT_FAILURE
    ∧ (printUsage w a).2 = { w with trace := w.trace ++ usageEvents a } := by
  simp [printUsage, usageEvents, eventsSince, World.emit, World.blank]

theorem usageEvents_no_system_call (a : CStr) :
    ∀ e ∈ usageEvents a, e.isSystemCall = false := by
  intro e he
  simp [usageEvents, printUsage, eventsSince, World.emit, World.blank] at he
  rcases he with rfl | rfl | rfl <;> rfl

theorem flagOf_spelling (c : Char) :
    (flagOf c = some .k ↔ c = 'K' ∨ c = 'k')
    ∧ (flagOf c = some .r ↔ c = 'R' ∨ c = 'r')
    ∧ (flagOf c = some .n ↔ c = 'N' ∨ c = 'n')
    ∧ (flagOf c = some .d ↔ c = 'D' ∨ c = 'd') := by
  unfold flagOf
  by_cases hk : c = 'K' ∨ c = 'k'
  · rcases hk with rfl | rfl <;> decide
  · by_cases hr : c = 'R' ∨ c = 'r'
    · rcases hr with rfl | rfl <;> decide
    · by_cases hn : c = 'N' ∨ c = 'n'
      · rcases hn with rfl | rfl <;> decide
      · by_cases hd : c = 'D' ∨ c = 'd'
        · rcases hd with rfl | rfl <;> decide
        · simp [hk, hr, hn, hd]

/-- Claim C9. When a rename flag and a delete flag both occur among the parsed options, or
one of the flags `k`, `r`, `n`, `d` occurs twice (in either case of the letter),
`argsCLI` returns `EXIT_FAILURE` through `printUsage` and calls none of the core
operations: all it does is write the usage text to `stderr`; no process is terminated and
no file is touched. -/
theorem argsCLI_conflicting_flags_usage (w : World) (argv0 : CStr) (opts : List Getopt)
    (h : (1 ≤ flagCount .r opts ∧ 1 ≤ flagCount .d opts)
      ∨ 2 ≤ flagCount .k opts ∨ 2 ≤ flagCount .r opts
      ∨ 2 ≤ flagCount .n opts ∨ 2 ≤ flagCount .d opts) :
    (∃ r, argsCLI w argv0 opts = some r
      ∧ r.status = EXIT_FAILURE
      ∧ r.invoked = []
      ∧ r.world = (printUsage w argv0).2
      ∧ eventsSince w r.world = usageEvents argv0
      ∧ (∀ e ∈ eventsSince w r.world, e.isSystemCall = false)
      ∧ r.world.terminated = w.terminated
      ∧ r.world.files = w.files)
    ∧ EXIT_FAILURE ≠ 0
    ∧ (∀ c : Char, (flagOf c = some .k ↔ c = 'K' ∨ c = 'k')
      ∧ (flagOf c = some .r ↔ c = 'R' ∨ c = 'r')
      ∧ (flagOf c = some .n ↔ c = 'N' ∨ c = 'n')
      ∧ (flagOf c = some .d ↔ c = 'D' ∨ c = 'd')) := by
  refine ⟨⟨returnUsage w argv0, ?_, ?_⟩, by decide, flagOf_spelling⟩
  · apply argsLoop_conflict
    rcases h with h | h | h | h | h
    · exact Or.inr h
    · exact Or.inl ⟨_, h⟩
    · exact Or.inl ⟨_, h⟩
    · exact Or.inl ⟨_, h⟩
    · exact Or.inl ⟨_, h⟩
  · have hev : eventsSince w (printUsage w argv0).2 = usageEvents argv0 := by
      rw [(printUsage_eq w argv0).2]
      simp [eventsSince]
    refine ⟨(printUsage_eq w argv0).1, rfl, rfl, hev, ?_, ?_, ?_⟩
    · show ∀ e ∈ eventsSince w (printUsage w argv0).2, e.isSystemCall = false
      rw [hev]
      exact usageEvents_no_system_call argv0
    · show (printUsage w argv0).2.terminated = w.terminated
      rw [(printUsage_eq w argv0).2]
    · show (printUsage w argv0).2.files = w.files
      rw [(printUsage_eq w argv0).2]

/-- Claim C9 on the command line `-k a.exe -r x -D y`, on a machine that runs `a.exe`. -/
theorem argsCLI_conflicting_flags_usage_witness :
    (1 ≤ flagCount .r renameAndDelete ∧ 1 ≤ flagCount .d renameAndDelete)
    ∧ ∃ r, argsCLI lockerWorld "terminator".toList renameAndDelete = some r
      ∧ r.status = EXIT_FAILURE
      ∧ r.invoked = []
      ∧ r.world = (printUsage lockerWorld "terminator".toList).2
      ∧ eventsSince lockerWorld r.world = usageEvents "terminator".toList
      ∧ (∀ e ∈ eventsSince lockerWorld r.world, e.isSystemCall = false)
      ∧ r.world.terminated = lockerWorld.terminated
      ∧ r.world.files = lockerWorld.files :=
  ⟨by decide,
   (argsCLI_conflicting_flags_usage lockerWorld "terminator".toList renameAndDelete
      (Or.inl (by decide))).1⟩

end Terminator
